import Mathlib

/-!
# Verification of the iteration-lineage and versioning engine

A shallow embedding of the image-iteration application: the session state
machine and lineage handlers of the main application component, and the
storage service (durable save, load-all, delete) together with the
pure parts of the gallery component.  Effectful collaborator calls
(artifact uploads, metadata reads/writes, storage deletes) are modelled by
an explicit environment describing each call's outcome and by a trace of
the calls issued.
-/

namespace LandscapeVision

/-- The session lifecycle states (`AppState` in the source):
`IDLE`/`LOADING`/`SUCCESS`/`ERROR` correspond to the spec's
IDLE/GENERATING/SUCCEEDED/FAILED. -/
inductive AppState where
  | IDLE
  | LOADING
  | SUCCESS
  | ERROR
deriving Repr, DecidableEq

/-- One completed generation step (`DesignIteration` in the source). -/
structure DesignIteration where
  id : String
  prompt : String
  image : String
  timestamp : Nat
deriving Repr, DecidableEq

/-- The durable lineage record (`SavedDesign` in the source).
`userId` and `iterations` are optional fields in the source type. -/
structure SavedDesign where
  id : String
  userId : Option String
  timestamp : Nat
  originalImage : String
  generatedImage : String
  prompt : String
  iterations : Option (List DesignIteration)
deriving Repr, DecidableEq

/-- An uploaded file: its MIME type, size in bytes, and the data URL the
file reader produces from its content. -/
structure UploadFile where
  ftype : String
  size : Nat
  dataUrl : String
deriving Repr, DecidableEq

/-- The working session: the mutable state held by the main application
component (the `useState` hooks of `App`). -/
structure Session where
  appState : AppState
  selectedFile : Option UploadFile
  imagePreview : Option String
  originalImageRef : Option String
  generatedImage : Option String
  pastIterations : List DesignIteration
  prompt : String
  errorMsg : Option String
  lastAutoSave : Option Nat
deriving Repr, DecidableEq

/-- JavaScript truthiness of a nullable string: `null`, `undefined` and
`""` are falsy. -/
def truthy : Option String → Bool
  | none => false
  | some s => s ≠ ""

/-- JavaScript `a || b` for a nullable string `a` with string fallback
`b`: falls through on `null` and on `""`. -/
def jsOr (a : Option String) (b : String) : String :=
  match a with
  | none => b
  | some s => if s = "" then b else s

/-- JavaScript `String.prototype.startsWith`: prefix test (defined on
the character list so that it evaluates definitionally). -/
def jsStartsWith (s pre : String) : Bool := pre.data.isPrefixOf s.data

/-- JavaScript `String.prototype.trim`: strips whitespace from both ends
of the string. -/
def jsTrim (s : String) : String :=
  String.mk (((s.data.dropWhile Char.isWhitespace).reverse.dropWhile Char.isWhitespace).reverse)

/-- The handler `processFile` validates the chosen file and, when valid, installs it
as the new root image, clearing any previous result and history. -/
def processFile (file : UploadFile) (s : Session) : Session :=
  if ¬ jsStartsWith file.ftype "image/" then
    { s with errorMsg := some "Please upload a valid image file (JPG, PNG)." }
  else if file.size > 10 * 1024 * 1024 then
    { s with errorMsg := some "Image size should be less than 10MB." }
  else
    { s with
      selectedFile := some file
      errorMsg := none
      generatedImage := none
      imagePreview := some file.dataUrl
      originalImageRef := some file.dataUrl
      pastIterations := [] }

/-- The synchronous prefix of `handleGenerate` (up to the point where the
asynchronous generation call is issued): the guard
`(!selectedFile && !imagePreview) || !prompt.trim()` rejects the request
(returning the session unchanged, modelled as `none`); otherwise the
session enters `LOADING` with the error banner cleared. -/
def handleGenerateStart (s : Session) : Option Session :=
  if (s.selectedFile = none ∧ ¬ truthy s.imagePreview) ∨ jsTrim s.prompt = "" then
    none
  else
    some { s with appState := .LOADING, errorMsg := none }

/-- The handler `handleReset` clears every session field and returns to `IDLE`
(the draft snapshot is also deleted; that effect has no session field). -/
def handleReset (_s : Session) : Session :=
  { appState := .IDLE
    selectedFile := none
    imagePreview := none
    originalImageRef := none
    generatedImage := none
    pastIterations := []
    prompt := ""
    errorMsg := none
    lastAutoSave := none }

/-- The handler `handleRetry` discards the current result and returns to `IDLE`,
keeping the same input. -/
def handleRetry (s : Session) : Session :=
  { s with generatedImage := none, appState := .IDLE }

/-- The handler `handleRefine` commits the current result as a completed iteration
(with a fresh id and the current time), makes it the new working input,
clears the result and the prompt, and returns to `IDLE`.  The guard
`if (!generatedImage) return` leaves the session unchanged when there is
no (truthy) result. -/
def handleRefine (freshId : String) (now : Nat) (s : Session) : Session :=
  match s.generatedImage with
  | none => s
  | some g =>
    if g = "" then s
    else
      { s with
        pastIterations := s.pastIterations ++ [⟨freshId, s.prompt, g, now⟩]
        imagePreview := some g
        generatedImage := none
        selectedFile := none
        prompt := ""
        appState := .IDLE }

/-- The handler `confirmSaveDesign`, the promotion of the working session into a
`SavedDesign` (the lineage handed to the storage service): guarded by the
truthiness of `generatedImage` and `imagePreview`; appends the current
result as a synthetic final iteration. -/
def confirmSaveDesign (freshIterId designId : String) (now : Nat) (userId : String)
    (s : Session) : Option SavedDesign :=
  match s.generatedImage, s.imagePreview with
  | some g, some w =>
    if g = "" ∨ w = "" then none
    else
      let currentIteration : DesignIteration := ⟨freshIterId, s.prompt, g, now⟩
      some
        { id := designId
          userId := some userId
          timestamp := now
          originalImage := jsOr s.originalImageRef w
          generatedImage := g
          prompt := s.prompt
          iterations := some (s.pastIterations ++ [currentIteration]) }
  | _, _ => none

/-- The handler `handleLoadDesign` ("reconstruct for viewing") restores the session
from a lineage, synthesizing a single legacy iteration when the lineage
predates per-step history, and re-entering at the result of the last
step in state `SUCCESS`. -/
def handleLoadDesign (design : SavedDesign) (s : Session) : Session :=
  let s1 := { s with originalImageRef := some design.originalImage }
  let iterations0 := design.iterations.getD []
  let iterations :=
    if iterations0 = [] ∧ design.generatedImage ≠ "" then
      [⟨"legacy", design.prompt, design.generatedImage, design.timestamp⟩]
    else iterations0
  let s2 :=
    match iterations.getLast? with
    | some lastIteration =>
      let previousIterations := iterations.dropLast
      let inputImage :=
        match previousIterations.getLast? with
        | some p => p.image
        | none => design.originalImage
      { s1 with
        pastIterations := previousIterations
        imagePreview := some inputImage
        generatedImage := some lastIteration.image
        prompt := lastIteration.prompt }
    | none =>
      { s1 with
        imagePreview := some design.originalImage
        generatedImage := some design.generatedImage
        prompt := design.prompt }
  { s2 with selectedFile := none, appState := .SUCCESS }

/-- The handler `handleEditDesign` ("reconstruct for editing") restores the session
from a lineage at the input of its last step, with no result and state
`IDLE`.  Unlike viewing, there is no legacy-iteration fallback. -/
def handleEditDesign (design : SavedDesign) (s : Session) : Session :=
  let s1 := { s with originalImageRef := some design.originalImage }
  let iterations := design.iterations.getD []
  let s2 :=
    match iterations.getLast? with
    | some lastIteration =>
      let previousIterations := iterations.dropLast
      let inputImage :=
        match previousIterations.getLast? with
        | some p => p.image
        | none => design.originalImage
      { s1 with
        pastIterations := previousIterations
        imagePreview := some inputImage
        prompt := lastIteration.prompt }
    | none =>
      { s1 with
        imagePreview := some design.originalImage
        prompt := design.prompt
        pastIterations := [] }
  { s2 with generatedImage := none, selectedFile := none, appState := .IDLE }

/-- The lineage invariant on the working session: the working input is the
root when no step has completed, and the image of the last completed step
otherwise. -/
def sessionInvariant (s : Session) : Prop :=
  s.imagePreview =
    match s.pastIterations.getLast? with
    | none => s.originalImageRef
    | some lastIteration => some lastIteration.image

instance (s : Session) : Decidable (sessionInvariant s) := by
  unfold sessionInvariant; exact inferInstance

/-! ## Storage service

The storage service's effectful collaborator calls are modelled by an
environment giving each call's outcome, and each service function returns
its result together with the trace of calls it issued. -/

/-- One collaborator call issued by the storage service. -/
inductive StorageOp where
  /-- Call to `uploadString`+`getDownloadURL` against a storage path. -/
  | upload (path : String) (image : String)
  /-- Call to `setDoc`: the metadata write of a full lineage record. -/
  | putDoc (design : SavedDesign)
  /-- Call to `getDoc`: the metadata fetch of one lineage record. -/
  | getDocOp (id : String)
  /-- Call to `deleteObject` against a storage path. -/
  | deleteObj (path : String)
  /-- Call to `deleteDoc`: the metadata delete of one lineage record. -/
  | deleteDocOp (id : String)
  /-- Call to `getDocs` of the query for all of one owner's lineages. -/
  | getAllOp (userId : String)
deriving Repr, DecidableEq

/-- The storage path of a lineage's original image. -/
def originalPath (userId designId : String) : String :=
  "users/" ++ userId ++ "/" ++ designId ++ "/original.png"

/-- The storage path of a lineage's generated (thumbnail) image. -/
def generatedPath (userId designId : String) : String :=
  "users/" ++ userId ++ "/" ++ designId ++ "/generated.png"

/-- The storage path of one iteration's image. -/
def iterationPath (userId designId iterId : String) : String :=
  "users/" ++ userId ++ "/" ++ designId ++ "/iterations/" ++ iterId ++ ".png"

/-- Outcomes of the collaborator calls the save path issues:
`uploadResult path image = some url` means the upload resolves with
download URL `url`; `none` means it rejects. -/
structure StorageEnv where
  uploadResult : String → String → Option String

/-- The service function `uploadImageToStorage` returns the string unchanged, with no call,
when it is empty or already an `http` locator; otherwise issues one
upload call and either resolves with the download URL or rejects. -/
def uploadImageToStorage (env : StorageEnv) (path imageString : String) :
    Option String × List StorageOp :=
  if imageString = "" ∨ jsStartsWith imageString "http" then
    (some imageString, [])
  else
    match env.uploadResult path imageString with
    | some url => (some url, [.upload path imageString])
    | none => (none, [.upload path imageString])

/-- The service function `saveDesign` uploads the original image, then the generated image,
then every iteration image (fanned out, all calls issued, joined), and
only after all uploads resolve writes the single metadata record, whose
artifact fields have been rewritten to the upload results.  Returns the
boolean outcome and the trace of calls issued. -/
def saveDesign (env : StorageEnv) (design : SavedDesign) (userId : String) :
    Bool × List StorageOp :=
  let r1 := uploadImageToStorage env (originalPath userId design.id) design.originalImage
  match r1.1 with
  | none => (false, r1.2)
  | some originalUrl =>
    let r2 := uploadImageToStorage env (generatedPath userId design.id) design.generatedImage
    match r2.1 with
    | none => (false, r1.2 ++ r2.2)
    | some generatedUrl =>
      let iters := design.iterations.getD []
      let results := iters.map (fun iter =>
        (iter, uploadImageToStorage env (iterationPath userId design.id iter.id) iter.image))
      let t3 := (results.map (fun x => x.2.2)).flatten
      if results.all (fun x => x.2.1.isSome) then
        let processedIterations := results.map (fun x =>
          { x.1 with image := x.2.1.getD x.1.image })
        let designToSave : SavedDesign :=
          { design with
            userId := some userId
            originalImage := originalUrl
            generatedImage := generatedUrl
            iterations := some processedIterations }
        (true, r1.2 ++ r2.2 ++ t3 ++ [.putDoc designToSave])
      else
        (false, r1.2 ++ r2.2 ++ t3)

/-- Auxiliary for `jsIncludes`: containment of one character list as a
contiguous sublist of another. -/
def listContainsSub (pattern : List Char) : List Char → Bool
  | [] => pattern.isEmpty
  | c :: rest => pattern.isPrefixOf (c :: rest) || listContainsSub pattern rest

/-- JavaScript `String.prototype.includes`: substring containment. -/
def jsIncludes (s pattern : String) : Bool :=
  listContainsSub pattern.data s.data

/-- Outcomes of the collaborator calls the load-all and delete paths
issue.  `Option.none` inside `Except.ok` on `getDocResult` models an
absent metadata record; `Except.error` models a thrown error.  Individual
`deleteObject` failures are swallowed by the service (`safeDelete`), so
their outcomes do not appear. -/
structure DeleteEnv where
  getDocResult : Except Unit (Option SavedDesign)
  deleteDocResult : Except Unit Unit
  getAllResult : Except Unit (List SavedDesign)

/-- The service function `getSavedDesigns` returns `[]` without a call for a falsy user id;
otherwise fetches the owner's lineages and sorts them newest-first in
memory, returning `[]` if the fetch throws. -/
def getSavedDesigns (env : DeleteEnv) (userId : String) :
    List SavedDesign × List StorageOp :=
  if userId = "" then ([], [])
  else
    match env.getAllResult with
    | .ok designs =>
      (designs.mergeSort (fun a b => b.timestamp ≤ a.timestamp), [.getAllOp userId])
    | .error _ => ([], [.getAllOp userId])

/-- The storage-cleanup calls `deleteDesign` issues for a fetched lineage:
one best-effort `deleteObject` per artifact whose reference is truthy and
contains `"firebasestorage"`. -/
def cleanupOps (design : SavedDesign) (id userId : String) : List StorageOp :=
  (if design.originalImage ≠ "" ∧ jsIncludes design.originalImage "firebasestorage" then
    [StorageOp.deleteObj (originalPath userId id)]
  else []) ++
  (if design.generatedImage ≠ "" ∧ jsIncludes design.generatedImage "firebasestorage" then
    [StorageOp.deleteObj (generatedPath userId id)]
  else []) ++
  (design.iterations.getD []).filterMap (fun iter =>
    if iter.image ≠ "" ∧ jsIncludes iter.image "firebasestorage" then
      some (StorageOp.deleteObj (iterationPath userId id iter.id))
    else none)

/-- The service function `deleteDesign` fetches the metadata record; if present, issues the
best-effort artifact cleanup calls (their individual failures are
swallowed); then deletes the metadata record unconditionally and returns
the refreshed load-all result.  Any thrown error is caught and `[]` is
returned. -/
def deleteDesign (env : DeleteEnv) (id userId : String) :
    List SavedDesign × List StorageOp :=
  match env.getDocResult with
  | .error _ => ([], [.getDocOp id])
  | .ok docSnap =>
    let cleanup :=
      match docSnap with
      | none => []
      | some design => cleanupOps design id userId
    match env.deleteDocResult with
    | .error _ => ([], [.getDocOp id] ++ cleanup ++ [.deleteDocOp id])
    | .ok _ =>
      let refreshed := getSavedDesigns env userId
      (refreshed.1, [.getDocOp id] ++ cleanup ++ [.deleteDocOp id] ++ refreshed.2)

/-! ## Concrete inputs used by counterexamples and witnesses -/

/-- A session already in `LOADING` (the spec's GENERATING) with a truthy
working image and a non-empty trimmed prompt. -/
def sessLoading : Session :=
  { appState := .LOADING
    selectedFile := none
    imagePreview := some "data:image/png;base64,AAA"
    originalImageRef := some "data:image/png;base64,AAA"
    generatedImage := none
    pastIterations := []
    prompt := "add a pond"
    errorMsg := none
    lastAutoSave := none }

/-- A session in `SUCCESS` holding a result, ready to be refined. -/
def sessSucceeded : Session :=
  { appState := .SUCCESS
    selectedFile := none
    imagePreview := some "data:in"
    originalImageRef := some "data:in"
    generatedImage := some "data:out"
    pastIterations := []
    prompt := "plant roses"
    errorMsg := none
    lastAutoSave := none }

/-! ## C1: only IDLE accepts a start-generation event -/

/-- Claim C1 is false on the code: `handleGenerate` never inspects the
session state, so a start-generation request issued while the session is
already `LOADING` (GENERATING), with an input image and a non-empty
trimmed prompt, is accepted rather than rejected. -/
theorem C1_generate_state_counterexample :
    sessLoading.appState ≠ AppState.IDLE ∧ handleGenerateStart sessLoading ≠ none := by
  decide

/-- Claim C1, amended: the start-generation guard depends only on the
inputs, not on the session state.  A request is rejected (session
unchanged) exactly when there is neither a selected file nor a truthy
working image, or the trimmed prompt is empty; every accepted request,
from any state, moves the session to `LOADING` and clears the error
banner. -/
theorem C1_generate_guard (s : Session) :
    (handleGenerateStart s = none ↔
      ((s.selectedFile = none ∧ ¬ truthy s.imagePreview) ∨ jsTrim s.prompt = "")) ∧
    (∀ s', handleGenerateStart s = some s' →
      s' = { s with appState := .LOADING, errorMsg := none }) := by
  unfold handleGenerateStart
  constructor
  · split
    · simp_all
    · simp_all
  · intro s' h
    split at h
    · simp_all
    · simp_all

/-- Witness for C1's amended theorem at the concrete `LOADING` session:
the request is accepted there and produces the expected state. -/
theorem C1_generate_guard_witness :
    { sessLoading with appState := AppState.LOADING, errorMsg := none } =
      { sessLoading with appState := AppState.LOADING, errorMsg := none } :=
  (C1_generate_guard sessLoading).2
    { sessLoading with appState := AppState.LOADING, errorMsg := none } (by decide)

/-! ## C4: refine commits the result as a new iteration -/

/-- Claim C4: in `SUCCESS` with a truthy result `g`, `handleRefine`
appends `g` (with the current prompt and the fresh id) to
`pastIterations`, makes `g` the working input, clears the result and the
prompt, and returns to `IDLE`. -/
theorem C4_refine_commits_result (s : Session) (freshId : String) (now : Nat) (g : String)
    (_hstate : s.appState = AppState.SUCCESS) (hg : s.generatedImage = some g)
    (hne : g ≠ "") :
    handleRefine freshId now s =
      { s with
        pastIterations := s.pastIterations ++ [⟨freshId, s.prompt, g, now⟩]
        imagePreview := some g
        generatedImage := none
        selectedFile := none
        prompt := ""
        appState := .IDLE } := by
  unfold handleRefine
  rw [hg]
  simp [hne]

/-- Witness for C4 at the concrete `SUCCESS` session. -/
theorem C4_refine_commits_result_witness :
    handleRefine "fid" 7 sessSucceeded =
      { sessSucceeded with
        pastIterations :=
          sessSucceeded.pastIterations ++ [⟨"fid", sessSucceeded.prompt, "data:out", 7⟩]
        imagePreview := some "data:out"
        generatedImage := none
        selectedFile := none
        prompt := ""
        appState := .IDLE } :=
  C4_refine_commits_result sessSucceeded "fid" 7 "data:out" rfl rfl (by decide)

/-! ## C8: viewing a legacy lineage -/

/-- Claim C8: reconstructing for viewing a legacy lineage (no stored
iterations, non-empty `generatedImage`) yields an empty history, the
original image as working input, the stored result and prompt, in state
`SUCCESS`. -/
theorem C8_load_legacy (design : SavedDesign) (s : Session)
    (hiter : design.iterations.getD [] = []) (hgen : design.generatedImage ≠ "") :
    (handleLoadDesign design s).pastIterations = [] ∧
    (handleLoadDesign design s).imagePreview = some design.originalImage ∧
    (handleLoadDesign design s).generatedImage = some design.generatedImage ∧
    (handleLoadDesign design s).prompt = design.prompt ∧
    (handleLoadDesign design s).appState = AppState.SUCCESS := by
  unfold handleLoadDesign
  simp [hiter, hgen]

/-- Witness for C8 at a concrete legacy lineage. -/
theorem C8_load_legacy_witness :
    (handleLoadDesign ⟨"d1", none, 42, "data:orig", "data:gen", "old prompt", some []⟩
        sessSucceeded).pastIterations = [] ∧
    (handleLoadDesign ⟨"d1", none, 42, "data:orig", "data:gen", "old prompt", some []⟩
        sessSucceeded).imagePreview = some "data:orig" ∧
    (handleLoadDesign ⟨"d1", none, 42, "data:orig", "data:gen", "old prompt", some []⟩
        sessSucceeded).generatedImage = some "data:gen" ∧
    (handleLoadDesign ⟨"d1", none, 42, "data:orig", "data:gen", "old prompt", some []⟩
        sessSucceeded).prompt = "old prompt" ∧
    (handleLoadDesign ⟨"d1", none, 42, "data:orig", "data:gen", "old prompt", some []⟩
        sessSucceeded).appState = AppState.SUCCESS :=
  C8_load_legacy ⟨"d1", none, 42, "data:orig", "data:gen", "old prompt", some []⟩
    sessSucceeded (by decide) (by decide)

/-! ## C7: reconstruct for editing -/

/-- Auxiliary: the last element of a non-empty list named through `getD`. -/
theorem getLast?_eq_some_getD {α : Type} (l : List α) (d : α) (h : l ≠ []) :
    l.getLast? = some (l.getD (l.length - 1) d) := by
  have hpos : 0 < l.length := List.length_pos.mpr h
  have hlt : l.length - 1 < l.length := by omega
  rw [List.getLast?_eq_getElem?]
  simp [hlt]

/-- Claim C7: editing a lineage with `n ≥ 1` iterations always clears the
result and returns to `IDLE`; the history becomes the first `n - 1`
iterations, the prompt comes from the last iteration, and the working
input is iteration `n - 2`'s image when `n ≥ 2`, else the original
image. -/
theorem handleEditDesign_of_getLast (design : SavedDesign) (s : Session)
    (l : List DesignIteration) (lastIter : DesignIteration)
    (hiter : design.iterations.getD [] = l) (hlast : l.getLast? = some lastIter) :
    handleEditDesign design s =
      { s with
        originalImageRef := some design.originalImage
        pastIterations := l.dropLast
        imagePreview := some
          (match l.dropLast.getLast? with
            | some p => p.image
            | none => design.originalImage)
        prompt := lastIter.prompt
        generatedImage := none
        selectedFile := none
        appState := .IDLE } := by
  unfold handleEditDesign
  rw [hiter]
  simp only [hlast]

theorem C7_edit_reconstruction (design : SavedDesign) (s : Session)
    (l : List DesignIteration) (n : Nat) (dflt : DesignIteration)
    (hiter : design.iterations = some l) (hn : l.length = n) (hpos : 1 ≤ n) :
    (handleEditDesign design s).generatedImage = none ∧
    (handleEditDesign design s).appState = AppState.IDLE ∧
    (handleEditDesign design s).pastIterations = l.take (n - 1) ∧
    (handleEditDesign design s).prompt = (l.getD (n - 1) dflt).prompt ∧
    (2 ≤ n →
      (handleEditDesign design s).imagePreview = some ((l.getD (n - 2) dflt).image)) ∧
    (n = 1 → (handleEditDesign design s).imagePreview = some design.originalImage) := by
  have hne : l ≠ [] := by
    intro hcon
    rw [hcon] at hn
    simp at hn
    omega
  have hlast := getLast?_eq_some_getD l dflt hne
  have hiter2 : design.iterations.getD [] = l := by rw [hiter]; rfl
  have heq := handleEditDesign_of_getLast design s l (l.getD (l.length - 1) dflt) hiter2 hlast
  rw [heq]
  have hdrop : l.dropLast = l.take (n - 1) := by
    rw [List.dropLast_eq_take, hn]
  refine ⟨rfl, rfl, hdrop, by rw [hn], ?_, ?_⟩
  · intro h2
    have hlen : l.dropLast.length = n - 1 := by simp [hn]
    have hne2 : l.dropLast ≠ [] := by
      intro hcon
      rw [hcon] at hlen
      simp at hlen
      omega
    have hlast2 := getLast?_eq_some_getD l.dropLast dflt hne2
    have hidx : n - 1 - 1 = n - 2 := by omega
    have hget : l.dropLast[n - 2]? = l[n - 2]? := by
      rw [List.getElem?_dropLast, hn]
      have hlt : n - 2 < n - 1 := by omega
      simp [hlt]
    simp [hlast2, hlen, hidx, hget]
  · intro h1
    have hnil : l.dropLast = [] := by
      apply List.eq_nil_of_length_eq_zero
      simp [hn, h1]
    simp [hnil]

/-- Witness for C7 on a concrete two-iteration lineage. -/
theorem C7_edit_reconstruction_witness :
    (handleEditDesign
        ⟨"d2", none, 9, "data:root", "data:i2", "p2",
          some [⟨"a", "p1", "data:i1", 1⟩, ⟨"b", "p2", "data:i2", 2⟩]⟩
        sessSucceeded).generatedImage = none ∧
    (handleEditDesign
        ⟨"d2", none, 9, "data:root", "data:i2", "p2",
          some [⟨"a", "p1", "data:i1", 1⟩, ⟨"b", "p2", "data:i2", 2⟩]⟩
        sessSucceeded).appState = AppState.IDLE ∧
    (handleEditDesign
        ⟨"d2", none, 9, "data:root", "data:i2", "p2",
          some [⟨"a", "p1", "data:i1", 1⟩, ⟨"b", "p2", "data:i2", 2⟩]⟩
        sessSucceeded).pastIterations =
      [⟨"a", "p1", "data:i1", 1⟩, ⟨"b", "p2", "data:i2", 2⟩].take 1 ∧
    (handleEditDesign
        ⟨"d2", none, 9, "data:root", "data:i2", "p2",
          some [⟨"a", "p1", "data:i1", 1⟩, ⟨"b", "p2", "data:i2", 2⟩]⟩
        sessSucceeded).prompt =
      ([⟨"a", "p1", "data:i1", 1⟩, ⟨"b", "p2", "data:i2", 2⟩].getD 1
        (⟨"z", "z", "z", 0⟩ : DesignIteration)).prompt ∧
    (2 ≤ 2 →
      (handleEditDesign
          ⟨"d2", none, 9, "data:root", "data:i2", "p2",
            some [⟨"a", "p1", "data:i1", 1⟩, ⟨"b", "p2", "data:i2", 2⟩]⟩
          sessSucceeded).imagePreview =
        some (([⟨"a", "p1", "data:i1", 1⟩, ⟨"b", "p2", "data:i2", 2⟩].getD 0
          (⟨"z", "z", "z", 0⟩ : DesignIteration)).image)) ∧
    (2 = 1 →
      (handleEditDesign
          ⟨"d2", none, 9, "data:root", "data:i2", "p2",
            some [⟨"a", "p1", "data:i1", 1⟩, ⟨"b", "p2", "data:i2", 2⟩]⟩
          sessSucceeded).imagePreview = some "data:root") :=
  C7_edit_reconstruction
    ⟨"d2", none, 9, "data:root", "data:i2", "p2",
      some [⟨"a", "p1", "data:i1", 1⟩, ⟨"b", "p2", "data:i2", 2⟩]⟩
    sessSucceeded [⟨"a", "p1", "data:i1", 1⟩, ⟨"b", "p2", "data:i2", 2⟩] 2
    ⟨"z", "z", "z", 0⟩ rfl rfl (by decide)

/-! ## Equations for `handleLoadDesign` -/

/-- Auxiliary: viewing a lineage with a non-empty iteration list. -/
theorem handleLoadDesign_of_getLast (design : SavedDesign) (s : Session)
    (l : List DesignIteration) (lastIter : DesignIteration)
    (hiter : design.iterations.getD [] = l) (hlast : l.getLast? = some lastIter) :
    handleLoadDesign design s =
      { s with
        originalImageRef := some design.originalImage
        pastIterations := l.dropLast
        imagePreview := some
          (match l.dropLast.getLast? with
            | some p => p.image
            | none => design.originalImage)
        generatedImage := some lastIter.image
        prompt := lastIter.prompt
        selectedFile := none
        appState := .SUCCESS } := by
  have hne : l ≠ [] := by
    intro hcon
    rw [hcon] at hlast
    simp at hlast
  have hcond : ¬(l = [] ∧ design.generatedImage ≠ "") := fun hc => hne hc.1
  unfold handleLoadDesign
  rw [hiter]
  simp only [hcond, if_false, hlast]

/-- Auxiliary: viewing a degenerate lineage (no iterations and an empty
`generatedImage`) takes the fallback branch, which does not touch
`pastIterations`. -/
theorem handleLoadDesign_degenerate (design : SavedDesign) (s : Session)
    (hiter : design.iterations.getD [] = []) (hgen : design.generatedImage = "") :
    handleLoadDesign design s =
      { s with
        originalImageRef := some design.originalImage
        imagePreview := some design.originalImage
        generatedImage := some design.generatedImage
        prompt := design.prompt
        selectedFile := none
        appState := .SUCCESS } := by
  unfold handleLoadDesign
  rw [hiter]
  simp [hgen]

/-! ## C3: promote / view round trip -/

/-- Claim C3: promoting a session with one past iteration `A`, result
`R`, prompt `P` and a working image yields a lineage whose
view-reconstruction restores `pastIterations = [A]`, `lastResult = R`
and `prompt = P`. -/
theorem C3_promote_view_round_trip (s s2 : Session) (A : DesignIteration)
    (R P w fid did : String) (now : Nat) (uid : String)
    (hpast : s.pastIterations = [A]) (hres : s.generatedImage = some R) (hR : R ≠ "")
    (hprompt : s.prompt = P) (hwork : s.imagePreview = some w) (hw : w ≠ "") :
    ∃ d, confirmSaveDesign fid did now uid s = some d ∧
      (handleLoadDesign d s2).pastIterations = [A] ∧
      (handleLoadDesign d s2).generatedImage = some R ∧
      (handleLoadDesign d s2).prompt = P := by
  have hd : confirmSaveDesign fid did now uid s = some
      { id := did
        userId := some uid
        timestamp := now
        originalImage := jsOr s.originalImageRef w
        generatedImage := R
        prompt := P
        iterations := some [A, ⟨fid, P, R, now⟩] } := by
    unfold confirmSaveDesign
    rw [hres, hwork]
    simp [hR, hw, hpast, hprompt]
  refine ⟨_, hd, ?_⟩
  have heq := handleLoadDesign_of_getLast
    { id := did
      userId := some uid
      timestamp := now
      originalImage := jsOr s.originalImageRef w
      generatedImage := R
      prompt := P
      iterations := some [A, ⟨fid, P, R, now⟩] } s2
    [A, ⟨fid, P, R, now⟩] ⟨fid, P, R, now⟩ rfl (by simp)
  rw [heq]
  simp

/-- Witness for C3 at a concrete one-step session. -/
theorem C3_promote_view_round_trip_witness :
    ∃ d, confirmSaveDesign "f9" "d9" 11 "u9"
        { appState := .SUCCESS
          selectedFile := none
          imagePreview := some "data:i1"
          originalImageRef := some "data:root"
          generatedImage := some "data:i2"
          pastIterations := [⟨"a", "p1", "data:i1", 1⟩]
          prompt := "p2"
          errorMsg := none
          lastAutoSave := none } = some d ∧
      (handleLoadDesign d sessSucceeded).pastIterations = [⟨"a", "p1", "data:i1", 1⟩] ∧
      (handleLoadDesign d sessSucceeded).generatedImage = some "data:i2" ∧
      (handleLoadDesign d sessSucceeded).prompt = "p2" :=
  C3_promote_view_round_trip
    { appState := .SUCCESS
      selectedFile := none
      imagePreview := some "data:i1"
      originalImageRef := some "data:root"
      generatedImage := some "data:i2"
      pastIterations := [⟨"a", "p1", "data:i1", 1⟩]
      prompt := "p2"
      errorMsg := none
      lastAutoSave := none }
    sessSucceeded ⟨"a", "p1", "data:i1", 1⟩ "data:i2" "p2" "data:i1" "f9" "d9" 11 "u9"
    rfl rfl (by decide) rfl rfl (by decide)

/-! ## C2: invariant preservation -/

/-- A session satisfying the lineage invariant, with one completed
iteration whose image is the working input. -/
def sessWithHistory : Session :=
  { appState := .SUCCESS
    selectedFile := none
    imagePreview := some "data:i1"
    originalImageRef := some "data:root"
    generatedImage := none
    pastIterations := [⟨"a", "p1", "data:i1", 1⟩]
    prompt := ""
    errorMsg := none
    lastAutoSave := none }

/-- A degenerate lineage: no iterations and an empty `generatedImage`. -/
def degenerateDesign : SavedDesign :=
  ⟨"dd", none, 3, "data:other", "", "q", some []⟩

/-- A legacy lineage with a non-empty `generatedImage`. -/
def legacyDesign : SavedDesign :=
  ⟨"dw", none, 3, "data:o", "data:g", "q", some []⟩

/-- Claim C2 is false on the code: viewing a degenerate lineage (no
iterations and empty `generatedImage`) takes `handleLoadDesign`'s
fallback branch, which resets the working image and root but leaves
`pastIterations` untouched, breaking the invariant when the prior
session had completed iterations. -/
theorem C2_invariant_counterexample :
    sessionInvariant sessWithHistory ∧
    ¬ sessionInvariant (handleLoadDesign degenerateDesign sessWithHistory) := by
  decide

/-- Claim C2, amended: selecting a new root image, refine, retry, reset
and reconstruct-for-editing preserve the lineage invariant
unconditionally; reconstruct-for-viewing preserves it provided the
lineage has at least one iteration, or a non-empty `generatedImage`, or
the prior session had no completed iterations (the degenerate fallback
branch is the sole exception). -/
theorem C2_invariant_preservation (s : Session) (file : UploadFile)
    (freshId : String) (now : Nat) (design : SavedDesign)
    (hinv : sessionInvariant s) :
    sessionInvariant (processFile file s) ∧
    sessionInvariant (handleRefine freshId now s) ∧
    sessionInvariant (handleRetry s) ∧
    sessionInvariant (handleReset s) ∧
    sessionInvariant (handleEditDesign design s) ∧
    ((design.iterations.getD [] ≠ [] ∨ design.generatedImage ≠ "" ∨
        s.pastIterations = []) →
      sessionInvariant (handleLoadDesign design s)) := by
  refine ⟨?_, ?_, ?_, ?_, ?_, ?_⟩
  · unfold processFile
    split
    · exact hinv
    split
    · exact hinv
    · simp [sessionInvariant]
  · unfold handleRefine
    cases hres : s.generatedImage with
    | none => exact hinv
    | some g =>
      by_cases hg : g = ""
      · simpa [hg] using hinv
      · simp [hg, sessionInvariant, List.getLast?_concat]
  · exact hinv
  · simp [sessionInvariant, handleReset]
  · cases hlast : (design.iterations.getD []).getLast? with
    | none =>
      have hnil : design.iterations.getD [] = [] := List.getLast?_eq_none_iff.mp hlast
      unfold handleEditDesign
      rw [hnil]
      simp [sessionInvariant]
    | some lastIter =>
      have heq := handleEditDesign_of_getLast design s (design.iterations.getD [])
        lastIter rfl hlast
      rw [heq]
      unfold sessionInvariant
      cases hdl : (design.iterations.getD []).dropLast.getLast? with
      | none =>
        have hdln : (design.iterations.getD []).dropLast = [] :=
          List.getLast?_eq_none_iff.mp hdl
        simp [hdl, hdln]
      | some p => simp [hdl]
  · intro hcase
    by_cases hleg : design.iterations.getD [] = []
    · by_cases hgen : design.generatedImage = ""
      · have hpast : s.pastIterations = [] := by
          rcases hcase with h | h | h
          · exact absurd hleg h
          · exact absurd hgen h
          · exact h
        rw [handleLoadDesign_degenerate design s hleg hgen]
        simp [sessionInvariant, hpast]
      · unfold handleLoadDesign
        rw [hleg]
        simp [sessionInvariant, hgen]
    · cases hlast : (design.iterations.getD []).getLast? with
      | none => exact absurd (List.getLast?_eq_none_iff.mp hlast) hleg
      | some lastIter =>
        have heq := handleLoadDesign_of_getLast design s (design.iterations.getD [])
          lastIter rfl hlast
        rw [heq]
        unfold sessionInvariant
        cases hdl : (design.iterations.getD []).dropLast.getLast? with
        | none =>
          have hdln : (design.iterations.getD []).dropLast = [] :=
            List.getLast?_eq_none_iff.mp hdl
          simp [hdl, hdln]
        | some p => simp [hdl]

/-- Witness for C2's amended theorem at concrete inputs: a file upload
and a legacy-lineage view both preserve the invariant over
`sessWithHistory`. -/
theorem C2_invariant_preservation_witness :
    sessionInvariant (processFile ⟨"image/png", 100, "data:f"⟩ sessWithHistory) ∧
    sessionInvariant (handleLoadDesign legacyDesign sessWithHistory) :=
  ⟨(C2_invariant_preservation sessWithHistory ⟨"image/png", 100, "data:f"⟩ "f" 5
      legacyDesign (by decide)).1,
   (C2_invariant_preservation sessWithHistory ⟨"image/png", 100, "data:f"⟩ "f" 5
      legacyDesign (by decide)).2.2.2.2.2 (by decide)⟩

/-! ## Properties of the save path -/

/-- Auxiliary: every call in a single upload's trace is that upload. -/
theorem uploadImageToStorage_ops (env : StorageEnv) (p i : String) (op : StorageOp)
    (h : op ∈ (uploadImageToStorage env p i).2) : op = .upload p i := by
  unfold uploadImageToStorage at h
  by_cases hc : i = "" ∨ jsStartsWith i "http"
  · simp [hc] at h
  · rcases he : env.uploadResult p i with _ | u
    · simp [hc, he] at h
      exact h
    · simp [hc, he] at h
      exact h

/-- Auxiliary: when a single upload resolves, no call in its trace
failed. -/
theorem uploadImageToStorage_success (env : StorageEnv) (p i : String)
    (h : (uploadImageToStorage env p i).1.isSome = true) (q j : String)
    (hm : StorageOp.upload q j ∈ (uploadImageToStorage env p i).2) :
    env.uploadResult q j ≠ none := by
  unfold uploadImageToStorage at h hm
  by_cases hc : i = "" ∨ jsStartsWith i "http"
  · simp [hc] at hm
  · rcases he : env.uploadResult p i with _ | u
    · simp [hc, he] at h
    · simp [hc, he] at hm
      obtain ⟨hq, hj⟩ := hm
      subst hq
      subst hj
      simp [he]

/-- Auxiliary: a single upload's trace never contains a metadata
write. -/
theorem uploadImageToStorage_no_putDoc (env : StorageEnv) (p i : String)
    (d : SavedDesign) (h : StorageOp.putDoc d ∈ (uploadImageToStorage env p i).2) :
    False := by
  have hop := uploadImageToStorage_ops env p i _ h
  simp at hop

/-- Auxiliary: when a single upload resolves, no call in its trace
failed (packaged form on the returned pair). -/
theorem uploadImageToStorage_mem_success (env : StorageEnv) (p i u : String)
    (t : List StorageOp) (h : uploadImageToStorage env p i = (some u, t))
    (q j : String) (hm : StorageOp.upload q j ∈ t) :
    env.uploadResult q j ≠ none := by
  apply uploadImageToStorage_success env p i (by rw [h]; rfl) q j
  rw [h]
  exact hm

/-- Auxiliary: every call in the iteration-stage trace is an upload. -/
theorem iterUploads_ops (env : StorageEnv) (designId userId : String)
    (iters : List DesignIteration) (op : StorageOp)
    (hm : op ∈ ((iters.map (fun iter =>
        (iter, uploadImageToStorage env (iterationPath userId designId iter.id)
          iter.image))).map (fun x => x.2.2)).flatten) :
    ∃ p i, op = StorageOp.upload p i := by
  obtain ⟨l, hl, hop⟩ := List.mem_flatten.mp hm
  obtain ⟨x, hxres, rfl⟩ := List.mem_map.mp hl
  obtain ⟨iter, _hiter, rfl⟩ := List.mem_map.mp hxres
  exact ⟨_, _, uploadImageToStorage_ops env _ _ op hop⟩

/-- Auxiliary: when every iteration-stage upload resolves, no call in
the iteration-stage trace failed. -/
theorem iterUploads_success (env : StorageEnv) (designId userId : String)
    (iters : List DesignIteration)
    (hall : (iters.map (fun iter =>
        (iter, uploadImageToStorage env (iterationPath userId designId iter.id)
          iter.image))).all (fun x => x.2.1.isSome) = true)
    (q j : String)
    (hm : StorageOp.upload q j ∈ ((iters.map (fun iter =>
        (iter, uploadImageToStorage env (iterationPath userId designId iter.id)
          iter.image))).map (fun x => x.2.2)).flatten) :
    env.uploadResult q j ≠ none := by
  obtain ⟨l, hl, hop⟩ := List.mem_flatten.mp hm
  obtain ⟨x, hxres, rfl⟩ := List.mem_map.mp hl
  obtain ⟨iter, hiter, rfl⟩ := List.mem_map.mp hxres
  rw [List.all_eq_true] at hall
  have hs := hall _ (List.mem_map.mpr ⟨iter, hiter, rfl⟩)
  exact uploadImageToStorage_success env _ _ hs q j hop

/-- Auxiliary master lemma for `saveDesign`: a `true` outcome means every
upload in the trace succeeded; a `false` outcome means no metadata write
is in the trace; and any metadata write in the trace is its final
call. -/
theorem saveDesign_spec (env : StorageEnv) (design : SavedDesign) (userId : String) :
    ((saveDesign env design userId).1 = true →
      ∀ q j, StorageOp.upload q j ∈ (saveDesign env design userId).2 →
        env.uploadResult q j ≠ none) ∧
    ((saveDesign env design userId).1 = false →
      ∀ d, StorageOp.putDoc d ∉ (saveDesign env design userId).2) ∧
    (∀ d, StorageOp.putDoc d ∈ (saveDesign env design userId).2 →
      (saveDesign env design userId).2.getLast? = some (StorageOp.putDoc d)) := by
  unfold saveDesign
  rcases h1 : uploadImageToStorage env (originalPath userId design.id) design.originalImage
    with ⟨r1v, t1⟩
  rcases h2 : uploadImageToStorage env (generatedPath userId design.id) design.generatedImage
    with ⟨r2v, t2⟩
  have ht1ops : ∀ op ∈ t1, op = StorageOp.upload (originalPath userId design.id)
      design.originalImage := by
    intro op hop
    exact uploadImageToStorage_ops env _ _ op (by rw [h1]; exact hop)
  have ht2ops : ∀ op ∈ t2, op = StorageOp.upload (generatedPath userId design.id)
      design.generatedImage := by
    intro op hop
    exact uploadImageToStorage_ops env _ _ op (by rw [h2]; exact hop)
  rcases r1v with _ | u1
  · refine ⟨?_, ?_, ?_⟩
    · intro hres
      simp [h1] at hres
    · intro _ d hmem
      simp [h1] at hmem
      have := ht1ops _ hmem
      simp at this
    · intro d hmem
      simp [h1] at hmem
      have := ht1ops _ hmem
      simp at this
  rcases r2v with _ | u2
  · refine ⟨?_, ?_, ?_⟩
    · intro hres
      simp [h1, h2] at hres
    · intro _ d hmem
      simp [h1, h2] at hmem
      rcases hmem with hmem | hmem
      · have := ht1ops _ hmem
        simp at this
      · have := ht2ops _ hmem
        simp at this
    · intro d hmem
      simp [h1, h2] at hmem
      rcases hmem with hmem | hmem
      · have := ht1ops _ hmem
        simp at this
      · have := ht2ops _ hmem
        simp at this
  · simp only [h1, h2]
    by_cases hall : ((design.iterations.getD []).map (fun iter =>
        (iter, uploadImageToStorage env (iterationPath userId design.id iter.id)
          iter.image))).all (fun x => x.2.1.isSome) = true
    · simp only [hall, if_true]
      refine ⟨?_, ?_, ?_⟩
      · intro _ q j hmem
        rcases List.mem_append.mp hmem with hm123 | hm4
        · rcases List.mem_append.mp hm123 with hm12 | hm3
          · rcases List.mem_append.mp hm12 with hm | hm
            · exact uploadImageToStorage_mem_success env _ _ u1 t1 h1 q j hm
            · exact uploadImageToStorage_mem_success env _ _ u2 t2 h2 q j hm
          · exact iterUploads_success env design.id userId _ hall q j hm3
        · simp at hm4
      · intro hres
        simp at hres
      · intro d hmem
        rcases List.mem_append.mp hmem with hm123 | hm4
        · rcases List.mem_append.mp hm123 with hm12 | hm3
          · rcases List.mem_append.mp hm12 with hm | hm
            · have := ht1ops _ hm
              simp at this
            · have := ht2ops _ hm
              simp at this
          · obtain ⟨p, i, hpi⟩ := iterUploads_ops env design.id userId _ _ hm3
            simp at hpi
        · have hd := List.mem_singleton.mp hm4
          rw [hd, List.getLast?_concat]
    · simp only [hall, if_false]
      refine ⟨?_, ?_, ?_⟩
      · intro hres
        simp at hres
      · intro _ d hmem
        rcases List.mem_append.mp hmem with hm12 | hm3
        · rcases List.mem_append.mp hm12 with hm | hm
          · have := ht1ops _ hm
            simp at this
          · have := ht2ops _ hm
            simp at this
        · obtain ⟨p, i, hpi⟩ := iterUploads_ops env design.id userId _ _ hm3
          simp at hpi
      · intro d hmem
        rcases List.mem_append.mp hmem with hm12 | hm3
        · rcases List.mem_append.mp hm12 with hm | hm
          · have := ht1ops _ hm
            simp at this
          · have := ht2ops _ hm
            simp at this
        · obtain ⟨p, i, hpi⟩ := iterUploads_ops env design.id userId _ _ hm3
          simp at hpi

/-! ## C5: all-or-nothing save -/

/-- Claim C5: whenever some artifact upload issued by `saveDesign` fails,
the save reports `false` and writes no metadata record; independently,
any metadata write in the trace is the final call, after all artifact
uploads. -/
theorem C5_save_all_or_nothing (env : StorageEnv) (design : SavedDesign)
    (userId : String) :
    ((∃ p i, StorageOp.upload p i ∈ (saveDesign env design userId).2 ∧
        env.uploadResult p i = none) →
      (saveDesign env design userId).1 = false ∧
      ∀ d, StorageOp.putDoc d ∉ (saveDesign env design userId).2) ∧
    (∀ d, StorageOp.putDoc d ∈ (saveDesign env design userId).2 →
      (saveDesign env design userId).2.getLast? = some (StorageOp.putDoc d)) := by
  obtain ⟨hsucc, hfailed, hlast⟩ := saveDesign_spec env design userId
  refine ⟨?_, hlast⟩
  rintro ⟨p, i, hmem, hfv⟩
  cases hres : (saveDesign env design userId).1 with
  | false => exact ⟨rfl, hfailed hres⟩
  | true => exact absurd hfv (hsucc hres p i hmem)

/-- The environment in which every upload call rejects. -/
def envAllFail : StorageEnv := ⟨fun _ _ => none⟩

/-- A lineage whose artifact references are all inline. -/
def inlineDesign : SavedDesign :=
  ⟨"d", none, 5, "data:o", "data:g", "P", some [⟨"a", "pa", "data:a", 1⟩]⟩

/-- Witness for C5: with every upload rejecting, saving the all-inline
lineage fails and writes no metadata record. -/
theorem C5_save_all_or_nothing_witness :
    (saveDesign envAllFail inlineDesign "u").1 = false ∧
    ∀ d, StorageOp.putDoc d ∉ (saveDesign envAllFail inlineDesign "u").2 :=
  (C5_save_all_or_nothing envAllFail inlineDesign "u").1
    ⟨originalPath "u" "d", "data:o", by decide, rfl⟩

/-! ## C6: exact calls for a two-iteration all-inline save -/

/-- Recognizer for upload calls in a trace. -/
def StorageOp.isUpload : StorageOp → Bool
  | .upload _ _ => true
  | _ => false

/-- Recognizer for metadata writes in a trace. -/
def StorageOp.isPutDoc : StorageOp → Bool
  | .putDoc _ => true
  | _ => false

/-- An environment in which every upload resolves, with the download URL
given by `f`. -/
def mkUploadEnv (f : String → String → String) : StorageEnv :=
  ⟨fun p i => some (f p i)⟩

/-- Claim C6: saving a two-iteration lineage whose four artifact
references are all inline issues exactly four upload calls (original,
generated, one per iteration) and one metadata write, the metadata write
coming last; and every artifact field of the committed record is a
remote locator, never inline data. -/
theorem C6_save_two_iteration_lineage (f : String → String → String)
    (design : SavedDesign) (i1 i2 : DesignIteration) (userId : String)
    (hf : ∀ p i, jsStartsWith (f p i) "http" = true)
    (hiters : design.iterations = some [i1, i2])
    (ho1 : design.originalImage ≠ "")
    (ho2 : jsStartsWith design.originalImage "http" = false)
    (hg1 : design.generatedImage ≠ "")
    (hg2 : jsStartsWith design.generatedImage "http" = false)
    (h11 : i1.image ≠ "") (h12 : jsStartsWith i1.image "http" = false)
    (h21 : i2.image ≠ "") (h22 : jsStartsWith i2.image "http" = false) :
    (saveDesign (mkUploadEnv f) design userId).1 = true ∧
    (saveDesign (mkUploadEnv f) design userId).2 =
      [.upload (originalPath userId design.id) design.originalImage,
       .upload (generatedPath userId design.id) design.generatedImage,
       .upload (iterationPath userId design.id i1.id) i1.image,
       .upload (iterationPath userId design.id i2.id) i2.image,
       .putDoc
         { design with
           userId := some userId
           originalImage := f (originalPath userId design.id) design.originalImage
           generatedImage := f (generatedPath userId design.id) design.generatedImage
           iterations := some
             [{ i1 with image := f (iterationPath userId design.id i1.id) i1.image },
              { i2 with image := f (iterationPath userId design.id i2.id) i2.image }] }] ∧
    ((saveDesign (mkUploadEnv f) design userId).2.filter StorageOp.isUpload).length = 4 ∧
    ((saveDesign (mkUploadEnv f) design userId).2.filter StorageOp.isPutDoc).length = 1 ∧
    (∀ d, StorageOp.putDoc d ∈ (saveDesign (mkUploadEnv f) design userId).2 →
      jsStartsWith d.originalImage "http" = true ∧
      jsStartsWith d.generatedImage "http" = true ∧
      ∀ it ∈ d.iterations.getD [], jsStartsWith it.image "http" = true) := by
  have htr : saveDesign (mkUploadEnv f) design userId =
      (true,
        [.upload (originalPath userId design.id) design.originalImage,
         .upload (generatedPath userId design.id) design.generatedImage,
         .upload (iterationPath userId design.id i1.id) i1.image,
         .upload (iterationPath userId design.id i2.id) i2.image,
         .putDoc
           { design with
             userId := some userId
             originalImage := f (originalPath userId design.id) design.originalImage
             generatedImage := f (generatedPath userId design.id) design.generatedImage
             iterations := some
               [{ i1 with image := f (iterationPath userId design.id i1.id) i1.image },
                { i2 with image := f (iterationPath userId design.id i2.id) i2.image }] }]) := by
    unfold saveDesign uploadImageToStorage mkUploadEnv
    rw [hiters]
    simp [ho1, ho2, hg1, hg2, h11, h12, h21, h22]
  refine ⟨by rw [htr], by rw [htr], ?_, ?_, ?_⟩
  · rw [htr]
    simp [StorageOp.isUpload, StorageOp.isPutDoc]
  · rw [htr]
    simp [StorageOp.isUpload, StorageOp.isPutDoc]
  · intro d hmem
    rw [htr] at hmem
    simp only [List.mem_cons, List.not_mem_nil, or_false] at hmem
    rcases hmem with h | h | h | h | h
    · simp at h
    · simp at h
    · simp at h
    · simp at h
    · injection h with hd
      subst hd
      refine ⟨hf _ _, hf _ _, ?_⟩
      intro it hit
      simp only [Option.getD_some, List.mem_cons, List.not_mem_nil, or_false] at hit
      rcases hit with h1 | h2
      · subst h1
        exact hf _ _
      · subst h2
        exact hf _ _

/-- A two-iteration lineage whose artifact references are all inline. -/
def inlineDesign2 : SavedDesign :=
  ⟨"d2", none, 6, "data:o", "data:g", "P2",
    some [⟨"a", "pa", "data:a", 1⟩, ⟨"b", "pb", "data:b", 2⟩]⟩

/-- Witness for C6 at the concrete two-iteration all-inline lineage. -/
theorem C6_save_two_iteration_lineage_witness :
    (saveDesign (mkUploadEnv (fun _ _ => "http://u")) inlineDesign2 "u").1 = true ∧
    (saveDesign (mkUploadEnv (fun _ _ => "http://u")) inlineDesign2 "u").2 =
      [.upload (originalPath "u" inlineDesign2.id) inlineDesign2.originalImage,
       .upload (generatedPath "u" inlineDesign2.id) inlineDesign2.generatedImage,
       .upload (iterationPath "u" inlineDesign2.id (⟨"a", "pa", "data:a", 1⟩ :
          DesignIteration).id) (⟨"a", "pa", "data:a", 1⟩ : DesignIteration).image,
       .upload (iterationPath "u" inlineDesign2.id (⟨"b", "pb", "data:b", 2⟩ :
          DesignIteration).id) (⟨"b", "pb", "data:b", 2⟩ : DesignIteration).image,
       .putDoc
         { inlineDesign2 with
           userId := some "u"
           originalImage :=
             (fun _ _ => "http://u") (originalPath "u" inlineDesign2.id)
               inlineDesign2.originalImage
           generatedImage :=
             (fun _ _ => "http://u") (generatedPath "u" inlineDesign2.id)
               inlineDesign2.generatedImage
           iterations := some
             [{ (⟨"a", "pa", "data:a", 1⟩ : DesignIteration) with
                image := (fun _ _ => "http://u")
                  (iterationPath "u" inlineDesign2.id (⟨"a", "pa", "data:a", 1⟩ :
                    DesignIteration).id)
                  (⟨"a", "pa", "data:a", 1⟩ : DesignIteration).image },
              { (⟨"b", "pb", "data:b", 2⟩ : DesignIteration) with
                image := (fun _ _ => "http://u")
                  (iterationPath "u" inlineDesign2.id (⟨"b", "pb", "data:b", 2⟩ :
                    DesignIteration).id)
                  (⟨"b", "pb", "data:b", 2⟩ : DesignIteration).image }] }] ∧
    ((saveDesign (mkUploadEnv (fun _ _ => "http://u")) inlineDesign2 "u").2.filter
      StorageOp.isUpload).length = 4 ∧
    ((saveDesign (mkUploadEnv (fun _ _ => "http://u")) inlineDesign2 "u").2.filter
      StorageOp.isPutDoc).length = 1 ∧
    (∀ d, StorageOp.putDoc d ∈
        (saveDesign (mkUploadEnv (fun _ _ => "http://u")) inlineDesign2 "u").2 →
      jsStartsWith d.originalImage "http" = true ∧
      jsStartsWith d.generatedImage "http" = true ∧
      ∀ it ∈ d.iterations.getD [], jsStartsWith it.image "http" = true) :=
  C6_save_two_iteration_lineage (fun _ _ => "http://u") inlineDesign2
    ⟨"a", "pa", "data:a", 1⟩ ⟨"b", "pb", "data:b", 2⟩ "u"
    (fun _ _ => (by decide : jsStartsWith "http://u" "http" = true)) rfl
    (by decide) (by decide) (by decide) (by decide)
    (by decide) (by decide) (by decide) (by decide)

/-! ## C9: delete skips never-uploaded artifacts -/

/-- Auxiliary: the original-image path and the generated-image path of
the same lineage differ (their suffixes have different lengths). -/
theorem originalPath_ne_generatedPath (u i : String) :
    originalPath u i ≠ generatedPath u i := by
  intro h
  have hlen := congrArg String.length h
  simp only [originalPath, generatedPath, String.length_append] at hlen
  have e1 : ("/original.png" : String).length = 13 := rfl
  have e2 : ("/generated.png" : String).length = 14 := rfl
  rw [e1, e2] at hlen
  omega

/-- Auxiliary: no iteration path of a lineage equals its generated-image
path (iteration paths are strictly longer). -/
theorem iterationPath_ne_generatedPath (u i x : String) :
    iterationPath u i x ≠ generatedPath u i := by
  intro h
  have hlen := congrArg String.length h
  simp only [iterationPath, generatedPath, String.length_append] at hlen
  have e1 : ("/iterations/" : String).length = 12 := rfl
  have e2 : (".png" : String).length = 4 := rfl
  have e3 : ("/generated.png" : String).length = 14 := rfl
  rw [e1, e2, e3] at hlen
  omega

/-- Auxiliary: the generated-image delete call never appears in the
cleanup calls when the lineage's `generatedImage` does not contain
`"firebasestorage"`. -/
theorem cleanupOps_no_generated (design : SavedDesign) (id userId : String)
    (hinline : jsIncludes design.generatedImage "firebasestorage" = false) :
    StorageOp.deleteObj (generatedPath userId id) ∉ cleanupOps design id userId := by
  unfold cleanupOps
  intro hmem
  rcases List.mem_append.mp hmem with h12 | h3
  · rcases List.mem_append.mp h12 with h1 | h2
    · by_cases hc : design.originalImage ≠ "" ∧
          jsIncludes design.originalImage "firebasestorage" = true
      · rw [if_pos hc] at h1
        have he := List.mem_singleton.mp h1
        injection he with hpath
        exact originalPath_ne_generatedPath userId id hpath.symm
      · rw [if_neg hc] at h1
        simp at h1
    · have hc : ¬(design.generatedImage ≠ "" ∧
          jsIncludes design.generatedImage "firebasestorage" = true) := by
        intro hcc
        rw [hinline] at hcc
        exact absurd hcc.2 (by simp)
      rw [if_neg hc] at h2
      simp at h2
  · obtain ⟨iter, _hiter, hsome⟩ := List.mem_filterMap.mp h3
    by_cases hc : iter.image ≠ "" ∧ jsIncludes iter.image "firebasestorage" = true
    · rw [if_pos hc] at hsome
      injection hsome with he
      injection he with hpath
      exact iterationPath_ne_generatedPath userId id iter.id hpath
    · rw [if_neg hc] at hsome
      exact Option.noConfusion hsome

/-- Auxiliary: every call issued by the load-all path is the owner
query. -/
theorem getSavedDesigns_ops (env : DeleteEnv) (userId : String) (op : StorageOp)
    (h : op ∈ (getSavedDesigns env userId).2) : op = .getAllOp userId := by
  unfold getSavedDesigns at h
  split at h
  · simp at h
  · split at h
    · simpa using h
    · simpa using h

/-- Claim C9: deleting a lineage whose `generatedImage` reference was
never uploaded (it does not contain `"firebasestorage"`) issues no
storage delete call for that artifact, yet still issues the metadata
delete. -/
theorem C9_delete_inline_generated (env : DeleteEnv) (design : SavedDesign)
    (id userId : String)
    (hdoc : env.getDocResult = .ok (some design))
    (hinline : jsIncludes design.generatedImage "firebasestorage" = false) :
    StorageOp.deleteObj (generatedPath userId id) ∉ (deleteDesign env id userId).2 ∧
    StorageOp.deleteDocOp id ∈ (deleteDesign env id userId).2 := by
  have hclean := cleanupOps_no_generated design id userId hinline
  unfold deleteDesign
  rw [hdoc]
  cases hdel : env.deleteDocResult with
  | error e =>
    constructor
    · intro hmem
      rcases List.mem_append.mp hmem with h12 | h3
      · rcases List.mem_append.mp h12 with h1 | h2
        · simp at h1
        · exact hclean h2
      · simp at h3
    · simp
  | ok v =>
    constructor
    · intro hmem
      rcases List.mem_append.mp hmem with h123 | h4
      · rcases List.mem_append.mp h123 with h12 | h3
        · rcases List.mem_append.mp h12 with h1 | h2
          · simp at h1
          · exact hclean h2
        · simp at h3
      · have := getSavedDesigns_ops env userId _ h4
        simp at this
    · refine List.mem_append.mpr (.inl ?_)
      refine List.mem_append.mpr (.inr ?_)
      simp

/-- Witness for C9: a lineage whose `generatedImage` is inline loses no
metadata delete and gets no generated-artifact delete call. -/
theorem C9_delete_inline_generated_witness :
    StorageOp.deleteObj (generatedPath "u0" "i0") ∉
      (deleteDesign ⟨.ok (some inlineDesign), .ok (), .ok []⟩ "i0" "u0").2 ∧
    StorageOp.deleteDocOp "i0" ∈
      (deleteDesign ⟨.ok (some inlineDesign), .ok (), .ok []⟩ "i0" "u0").2 :=
  C9_delete_inline_generated ⟨.ok (some inlineDesign), .ok (), .ok []⟩
    inlineDesign "i0" "u0" rfl (by decide)

/-! ## C10: delete error handling -/

/-- Claim C10: if the initial metadata fetch throws, `deleteDesign`
returns `[]` after issuing only the fetch (so the metadata record is not
deleted); if the metadata delete throws, or the refreshing load-all
throws, `deleteDesign` still returns `[]` rather than the surviving
designs. -/
theorem C10_delete_error_paths (env : DeleteEnv) (id userId : String) :
    (env.getDocResult = .error () →
      deleteDesign env id userId = ([], [.getDocOp id])) ∧
    (env.deleteDocResult = .error () → (deleteDesign env id userId).1 = []) ∧
    (env.getAllResult = .error () → (deleteDesign env id userId).1 = []) := by
  refine ⟨?_, ?_, ?_⟩
  · intro h
    unfold deleteDesign
    rw [h]
  · intro h
    unfold deleteDesign
    cases hg : env.getDocResult with
    | error e => rfl
    | ok snap =>
      rw [h]
  · intro h
    unfold deleteDesign
    cases hg : env.getDocResult with
    | error e => rfl
    | ok snap =>
      cases hd : env.deleteDocResult with
      | error e => rfl
      | ok v =>
        unfold getSavedDesigns
        rw [h]
        by_cases hu : userId = ""
        · simp [hu]
        · simp [hu]

/-- Witness for C10 with every collaborator call throwing. -/
theorem C10_delete_error_paths_witness :
    deleteDesign ⟨.error (), .error (), .error ()⟩ "i1" "u1" =
      ([], [.getDocOp "i1"]) ∧
    (deleteDesign ⟨.error (), .error (), .error ()⟩ "i1" "u1").1 = [] ∧
    (deleteDesign ⟨.error (), .error (), .error ()⟩ "i1" "u1").1 = [] :=
  ⟨(C10_delete_error_paths ⟨.error (), .error (), .error ()⟩ "i1" "u1").1 rfl,
   (C10_delete_error_paths ⟨.error (), .error (), .error ()⟩ "i1" "u1").2.1 rfl,
   (C10_delete_error_paths ⟨.error (), .error (), .error ()⟩ "i1" "u1").2.2 rfl⟩

end LandscapeVision
